import Mathlib

/-!
Verification of the chat session service (`src/services/chat.ts`).

The TypeScript module keeps four pieces of in-memory state (`chats`,
`activeChat`, `messages`, `ongoingAiMessages`) in sync with a persistent
store (Dexie tables `chats` and `messages`) while streaming AI responses.
This file is a shallow embedding: each orchestrator operation and each
streaming callback becomes a total Lean function from the session state,
the store state and a schedule of store-call outcomes to the next states.

Store calls may fail; in the source every failure is caught by `try/catch`
and logged.  The schedule (`StoreSched`) supplies one Boolean per store
call, in program order; an empty schedule means every call succeeds.  A
failed write leaves the store untouched (the store is transactional per
call), mirroring the spec's store contract.

Two JavaScript features need a modelling convention:
* `Date` values become `Nat` timestamps, passed in as a `now` argument to
  the operations that call `new Date()`.
* object references: `activeChat.value` and the entries of
  `ongoingAiMessages` can alias objects held elsewhere.  The embedding
  uses immutable values and threads each mutation to every place the
  source observably updates; places where the source's aliasing is not
  observable by any claim are noted in comments at the definitions.
-/

set_option autoImplicit false

/-- Role of a message: `'system' | 'user' | 'assistant'` in the source. -/
inductive Role where
  | system
  | user
  | assistant
deriving Repr, DecidableEq

/-- A `Chat` record (`database.ts`): `id` is assigned by the store on
creation (`id?: number` — `none` before insertion). -/
structure Chat where
  id : Option Nat
  name : String
  model : String
  createdAt : Nat
deriving Repr, DecidableEq

/-- A `Message` record: `context` is the opaque continuation token
(`number[]` in the source, so an *empty* token is still "present", which
matches `Option (List Nat)` with `some []`). -/
structure Message where
  id : Option Nat
  chatId : Nat
  role : Role
  content : String
  context : Option (List Nat)
  meta : Option String
  createdAt : Nat
deriving Repr, DecidableEq

/-- The source writes `chat.id!`: a non-null assertion.  All records read
back from the store carry an id, so the default is never observable. -/
def Chat.idBang (c : Chat) : Nat := c.id.getD 0

/-- Same non-null assertion for messages (`message.id!`). -/
def Message.idBang (m : Message) : Nat := m.id.getD 0

/-- The persistent store: the two Dexie tables plus their auto-increment
counters.  `toArray` returns records in primary-key order, which equals
insertion order here, so plain lists model the tables. -/
structure DB where
  chats : List Chat
  messages : List Message
  nextChatId : Nat
  nextMessageId : Nat
deriving Repr, DecidableEq

namespace dbLayer

/-- `db.chats.toArray()` -/
def getAllChats (db : DB) : List Chat :=
  db.chats

/-- `db.chats.get(chatId)`: lookup by primary key. -/
def getChat (db : DB) (chatId : Nat) : Option Chat :=
  db.chats.find? (fun c => c.id == some chatId)

/-- `db.messages.where('chatId').equals(chatId).toArray()` -/
def getMessages (db : DB) (chatId : Nat) : List Message :=
  db.messages.filter (fun m => m.chatId == chatId)

/-- `db.chats.add(chat)`: stores the record with a fresh id and returns
that id. -/
def addChat (db : DB) (chat : Chat) : DB × Nat :=
  ({ db with
      chats := db.chats ++ [{ chat with id := some db.nextChatId }],
      nextChatId := db.nextChatId + 1 },
   db.nextChatId)

/-- `db.chats.update(chatId, { model })`: the only `updateChat` call site
passes a `model` patch, so the embedding specialises to it. -/
def updateChatModel (db : DB) (chatId : Nat) (model : String) : DB :=
  { db with
      chats := db.chats.map (fun c =>
        if c.id == some chatId then { c with model := model } else c) }

/-- `db.messages.add(message)` -/
def addMessage (db : DB) (message : Message) : DB × Nat :=
  ({ db with
      messages := db.messages ++ [{ message with id := some db.nextMessageId }],
      nextMessageId := db.nextMessageId + 1 },
   db.nextMessageId)

/-- `db.messages.update(messageId, { content })` -/
def updateMessageContent (db : DB) (messageId : Nat) (content : String) : DB :=
  { db with
      messages := db.messages.map (fun m =>
        if m.id == some messageId then { m with content := content } else m) }

/-- `db.messages.update(messageId, { context })` -/
def updateMessageContext (db : DB) (messageId : Nat) (context : List Nat) : DB :=
  { db with
      messages := db.messages.map (fun m =>
        if m.id == some messageId then { m with context := some context } else m) }

/-- `db.chats.delete(chatId)` -/
def deleteChat (db : DB) (chatId : Nat) : DB :=
  { db with chats := db.chats.filter (fun c => c.id != some chatId) }

/-- `db.messages.where('chatId').equals(chatId).delete()` -/
def deleteMessagesOfChat (db : DB) (chatId : Nat) : DB :=
  { db with messages := db.messages.filter (fun m => m.chatId != chatId) }

/-- `db.chats.clear()` (the auto-increment counter is not reset). -/
def clearChats (db : DB) : DB :=
  { db with chats := [] }

/-- `db.messages.clear()` -/
def clearMessages (db : DB) : DB :=
  { db with messages := [] }

end dbLayer

/-- The in-flight map `ongoingAiMessages : Map<number, Message>`,
modelled as an association list in insertion order (JS `Map` iterates in
insertion order; `set` on an existing key updates in place). -/
abbrev OngoingMap := List (Nat × Message)

/-- `map.get(k)` -/
def mapGet (m : OngoingMap) (k : Nat) : Option Message :=
  (m.find? (fun p => p.1 == k)).map Prod.snd

/-- `map.set(k, v)`: replaces the entry in place when the key is present,
otherwise appends. -/
def mapSet (m : OngoingMap) (k : Nat) (v : Message) : OngoingMap :=
  if (m.find? (fun p => p.1 == k)).isSome then
    m.map (fun p => if p.1 == k then (k, v) else p)
  else
    m ++ [(k, v)]

/-- `map.delete(k)` -/
def mapDelete (m : OngoingMap) (k : Nat) : OngoingMap :=
  m.filter (fun p => p.1 != k)

/-- `map.has(k)` -/
def mapHas (m : OngoingMap) (k : Nat) : Bool :=
  (m.find? (fun p => p.1 == k)).isSome

/-- The module-level refs: `chats`, `activeChat`, `messages`,
`ongoingAiMessages`. -/
structure SessionState where
  chats : List Chat
  activeChat : Option Chat
  messages : List Message
  ongoingAiMessages : OngoingMap
deriving Repr, DecidableEq

/-- Stable insertion of a chat into a list already sorted by descending
`createdAt`. -/
def insertByNewest (c : Chat) : List Chat → List Chat
  | [] => [c]
  | d :: ds =>
      if d.createdAt ≤ c.createdAt then c :: d :: ds
      else d :: insertByNewest c ds

/-- The computed `sortedChats`:
`[...chats].sort((a, b) => b.createdAt.getTime() - a.createdAt.getTime())`,
a stable sort by descending creation time, modelled by stable insertion
sort. -/
def sortedChats : List Chat → List Chat
  | [] => []
  | c :: cs => insertByNewest c (sortedChats cs)

/-- The computed `hasActiveChat`. -/
def hasActiveChat (st : SessionState) : Bool :=
  st.activeChat.isSome

/-- The computed `hasMessages`: `messages.value.length > 0`. -/
def hasMessages (st : SessionState) : Bool :=
  decide (st.messages.length > 0)

/-- `setActiveChat` -/
def setActiveChat (st : SessionState) (chat : Chat) : SessionState :=
  { st with activeChat := some chat }

/-- `setMessages` -/
def setMessages (st : SessionState) (msgs : List Message) : SessionState :=
  { st with messages := msgs }

/-- Outcome schedule for store calls: one Boolean per call in program
order; an exhausted schedule means the remaining calls succeed. -/
abbrev StoreSched := List Bool

/-- Consume the outcome of the next store call. -/
def takeStep : StoreSched → Bool × StoreSched
  | [] => (true, [])
  | b :: s => (b, s)

/-- Result of one operation: the session state, the store, and the
unconsumed schedule. -/
structure Step where
  st : SessionState
  db : DB
  sched : StoreSched
deriving Repr, DecidableEq

/-- `switchChat(chatId)`: load the chat; when found, make it active and
replace the message list with its persisted messages.  Both store reads
can fail; each failure is caught and logged, leaving whatever had already
been assigned. -/
def switchChat (chatId : Nat) (st : SessionState) (db : DB) (sched : StoreSched) : Step :=
  let (ok1, s1) := takeStep sched
  if ok1 then
    match dbLayer.getChat db chatId with
    | some chat =>
        let st1 := setActiveChat st chat
        let (ok2, s2) := takeStep s1
        if ok2 then ⟨setMessages st1 (dbLayer.getMessages db chatId), db, s2⟩
        else ⟨st1, db, s2⟩
    | none => ⟨st, db, s1⟩
  else ⟨st, db, s1⟩

/-- `switchModel(model)`: no-op unless there is an active chat with an
empty message list; on success persists the model and mirrors it onto the
active chat.  The source mutates the object referenced by
`activeChat.value`; a cache entry obtained through `getChat` is a distinct
object, so the embedding updates only `activeChat`. -/
def switchModel (model : String) (st : SessionState) (db : DB) (sched : StoreSched) : Step :=
  match st.activeChat with
  | none => ⟨st, db, sched⟩
  | some ac =>
      if hasMessages st then ⟨st, db, sched⟩
      else
        let (ok, s1) := takeStep sched
        if ok then
          ⟨{ st with activeChat := some { ac with model := model } },
           dbLayer.updateChatModel db ac.idBang model, s1⟩
        else ⟨st, db, s1⟩

/-- `startNewChat(name, model)`: persist a fresh chat, append it to the
cache, make it active, clear the message list. -/
def startNewChat (name model : String) (now : Nat) (st : SessionState) (db : DB)
    (sched : StoreSched) : Step :=
  let newChat : Chat := ⟨none, name, model, now⟩
  let (ok, s1) := takeStep sched
  if ok then
    let (db1, newId) := dbLayer.addChat db newChat
    let nc := { newChat with id := some newId }
    ⟨{ st with chats := st.chats ++ [nc], activeChat := some nc, messages := [] }, db1, s1⟩
  else ⟨st, db, s1⟩

/-- `initialize()` (renamed: `initializeChats`): load all chats; if any
exist switch to the newest, else start a default chat. -/
def initializeChats (now : Nat) (st : SessionState) (db : DB) (sched : StoreSched) : Step :=
  let (ok, s1) := takeStep sched
  if ok then
    let st1 := { st with chats := dbLayer.getAllChats db }
    if st1.chats.length > 0 then
      match sortedChats st1.chats with
      | best :: _ => switchChat best.idBang st1 db s1
      | [] => ⟨st1, db, s1⟩
    else
      startNewChat "New chat" "n/a" now st1 db s1
  else ⟨st, db, s1⟩

/-- `addSystemMessage(content, meta)`: requires an active chat; persists a
system message and appends it.  The id returned by `addMessage` is
discarded by the source (`await dbLayer.addMessage(message)`), so the
in-memory copy keeps `id = none`. -/
def addSystemMessage (content : String) (meta : Option String) (now : Nat)
    (st : SessionState) (db : DB) (sched : StoreSched) : Step :=
  match st.activeChat with
  | none => ⟨st, db, sched⟩
  | some ac =>
      let message : Message := ⟨none, ac.idBang, Role.system, content, none, meta, now⟩
      let (ok, s1) := takeStep sched
      if ok then
        let (db1, _newId) := dbLayer.addMessage db message
        ⟨{ st with messages := st.messages ++ [message] }, db1, s1⟩
      else ⟨st, db, s1⟩

/-- `addUserMessage(content)`: requires an active chat; refreshes the
message list from the store, persists and appends a user message with its
assigned id, then searches backward for the last message carrying a
context token and hands everything to the completion transport
(`generate`), whose callbacks are `handleAiPartialResponse` /
`handleAiCompletion` modelled separately below. -/
def addUserMessage (content : String) (now : Nat) (st : SessionState) (db : DB)
    (sched : StoreSched) : Step :=
  match st.activeChat with
  | none => ⟨st, db, sched⟩
  | some ac =>
      let currentChatId := ac.idBang
      let (ok1, s1) := takeStep sched
      if ok1 then
        let st1 := setMessages st (dbLayer.getMessages db currentChatId)
        let message : Message := ⟨none, ac.idBang, Role.user, content, none, none, now⟩
        let (ok2, s2) := takeStep s1
        if ok2 then
          let (db1, newId) := dbLayer.addMessage db message
          let message1 := { message with id := some newId }
          let st2 := { st1 with messages := st1.messages ++ [message1] }
          let _lastMessageWithContext :=
            (st2.messages.reverse.find? (fun msg => msg.context.isSome)).bind Message.context
          ⟨st2, db1, s2⟩
        else ⟨st1, db, s2⟩
      else ⟨st, db, s1⟩

/-- `startAiMessage(initialContent, chatId)` — streaming transition START:
persist a fresh assistant message, record it in the in-flight map and push
it onto the visible list (whether or not `chatId` is the active chat). -/
def startAiMessage (initialContent : String) (chatId : Nat) (now : Nat)
    (st : SessionState) (db : DB) (sched : StoreSched) : Step :=
  let message : Message := ⟨none, chatId, Role.assistant, initialContent, none, none, now⟩
  let (ok, s1) := takeStep sched
  if ok then
    let (db1, newId) := dbLayer.addMessage db message
    let message1 := { message with id := some newId }
    ⟨{ st with
        ongoingAiMessages := mapSet st.ongoingAiMessages chatId message1,
        messages := st.messages ++ [message1] }, db1, s1⟩
  else ⟨st, db, s1⟩

/-- `appendToAiMessage(content, chatId)` — streaming transition APPEND:
grow the in-flight message's content (this happens before the `try`, so it
survives a store failure), persist the new content, and on success replace
the visible message list with `getMessages(chatId)` — the *streaming*
chat's persisted messages, exactly as the source does. -/
def appendToAiMessage (content : String) (chatId : Nat) (st : SessionState) (db : DB)
    (sched : StoreSched) : Step :=
  match mapGet st.ongoingAiMessages chatId with
  | some aiMessage =>
      let aiMessage1 := { aiMessage with content := aiMessage.content ++ content }
      let st1 := { st with ongoingAiMessages := mapSet st.ongoingAiMessages chatId aiMessage1 }
      let (ok1, s1) := takeStep sched
      if ok1 then
        let db1 := dbLayer.updateMessageContent db aiMessage1.idBang aiMessage1.content
        let (ok2, s2) := takeStep s1
        if ok2 then ⟨setMessages st1 (dbLayer.getMessages db1 chatId), db1, s2⟩
        else ⟨st1, db1, s2⟩
      else ⟨st1, db, s1⟩
  | none => ⟨st, db, sched⟩

/-- `handleAiPartialResponse(data, chatId)`: APPEND when the chat has an
in-flight entry, START otherwise. -/
def handleAiPartialResponse (response : String) (chatId : Nat) (now : Nat)
    (st : SessionState) (db : DB) (sched : StoreSched) : Step :=
  if mapHas st.ongoingAiMessages chatId then
    appendToAiMessage response chatId st db sched
  else
    startAiMessage response chatId now st db sched

/-- `handleAiCompletion(data, chatId)` — transition FINALIZE: persist the
continuation token onto the in-flight message's record and drop the map
entry.  When the write fails, the `catch` skips the `delete`, so the entry
stays in the map.  With no in-flight entry the source only logs
(`console.error` and a `debugger` statement): no state change. -/
def handleAiCompletion (context : List Nat) (chatId : Nat) (st : SessionState) (db : DB)
    (sched : StoreSched) : Step :=
  match mapGet st.ongoingAiMessages chatId with
  | some aiMessage =>
      let (ok, s1) := takeStep sched
      if ok then
        let db1 := dbLayer.updateMessageContext db aiMessage.idBang context
        ⟨{ st with ongoingAiMessages := mapDelete st.ongoingAiMessages chatId }, db1, s1⟩
      else ⟨st, db, s1⟩
  | none => ⟨st, db, sched⟩

/-- `wipeDatabase()`: clear both tables, reset all in-memory state, start
one fresh default chat carrying over the previously active model. -/
def wipeDatabase (now : Nat) (st : SessionState) (db : DB) (sched : StoreSched) : Step :=
  let (ok1, s1) := takeStep sched
  if ok1 then
    let db1 := dbLayer.clearChats db
    let (ok2, s2) := takeStep s1
    if ok2 then
      let db2 := dbLayer.clearMessages db1
      let model := st.activeChat.map Chat.model
      let st1 : SessionState := ⟨[], none, [], []⟩
      startNewChat "new chat" (model.getD "none") now st1 db2 s2
    else ⟨st, db1, s2⟩
  else ⟨st, db, s1⟩

/-- `deleteChat(chatId)`: delete the chat and its messages from the store,
drop it from the cache; when it was active, switch to the newest remaining
chat or start a fresh default chat carrying the deleted chat's model. -/
def deleteChat (chatId : Nat) (now : Nat) (st : SessionState) (db : DB)
    (sched : StoreSched) : Step :=
  let (ok1, s1) := takeStep sched
  if ok1 then
    let db1 := dbLayer.deleteChat db chatId
    let (ok2, s2) := takeStep s1
    if ok2 then
      let db2 := dbLayer.deleteMessagesOfChat db1 chatId
      let st1 := { st with chats := st.chats.filter (fun chat => chat.id != some chatId) }
      match st.activeChat with
      | some ac =>
          if ac.id == some chatId then
            match sortedChats st1.chats with
            | best :: _ => switchChat best.idBang st1 db2 s2
            | [] =>
                -- `activeChat.value.model ?? 'none'`: `model` is a non-null
                -- string, so the fallback cannot trigger.
                startNewChat "new chat" ac.model now st1 db2 s2
          else ⟨st1, db2, s2⟩
      | none => ⟨st1, db2, s2⟩
    else ⟨st, db1, s2⟩
  else ⟨st, db, s1⟩

/-- Deliver a sequence of `partial` events for one chat, in order, all
store calls succeeding. -/
def runPartials (fragments : List String) (chatId : Nat) (now : Nat)
    (st : SessionState) (db : DB) : Step :=
  match fragments with
  | [] => ⟨st, db, []⟩
  | f :: fs =>
      let r := handleAiPartialResponse f chatId now st db []
      runPartials fs chatId now r.st r.db

/-- Concatenation of fragments in delivery order. -/
def concatFragments : List String → String
  | [] => ""
  | f :: fs => f ++ concatFragments fs

/-! Concrete states used by the counterexample and witness theorems. -/

/-- Example chat with id 1. -/
def chatA : Chat := ⟨some 1, "A", "m1", 10⟩

/-- Example chat with id 2, created later than `chatA`. -/
def chatB : Chat := ⟨some 2, "B", "m2", 20⟩

/-- A persisted user message of `chatA`. -/
def msgA : Message := ⟨some 10, 1, Role.user, "hi", none, none, 11⟩

/-- A persisted in-flight assistant message of `chatB`. -/
def msgB : Message := ⟨some 11, 2, Role.assistant, "He", none, none, 21⟩

/-- Session where `chatA` is active while `chatB` has an in-flight stream. -/
def stAB : SessionState := ⟨[chatA, chatB], some chatA, [msgA], [(2, msgB)]⟩

/-- Store matching `stAB`. -/
def dbAB : DB := ⟨[chatA, chatB], [msgA, msgB], 3, 12⟩

/-- Session holding only the non-active `chatB`. -/
def stOnlyB : SessionState := ⟨[chatB], none, [], []⟩

/-- Store matching `stOnlyB`. -/
def dbOnlyB : DB := ⟨[chatB], [msgB], 3, 12⟩

/-- Fresh session with the empty active `chatA`. -/
def stFreshA : SessionState := ⟨[chatA], some chatA, [], []⟩

/-- Store matching `stFreshA`: no messages yet. -/
def dbFreshA : DB := ⟨[chatA], [], 2, 0⟩

/-- Session with `chatA` active and both chats cached. -/
def stActiveA : SessionState := ⟨[chatA, chatB], some chatA, [msgA], []⟩

theorem find?_map_replace (k : Nat) (v : Message) :
    ∀ m : OngoingMap, (m.find? (fun p => p.1 == k)).isSome →
      (m.map (fun p => if p.1 == k then (k, v) else p)).find? (fun p => p.1 == k) =
        some (k, v) := by
  intro m
  induction m with
  | nil => simp
  | cons p ps ih =>
      intro h
      by_cases hp : p.1 = k
      · rw [List.map_cons]
        rw [show (if (p.1 == k) = true then ((k, v) : Nat × Message) else p) = (k, v) by
          simp [hp]]
        exact List.find?_cons_of_pos _ (by simp)
      · have hps : (ps.find? (fun q => q.1 == k)).isSome := by
          rw [List.find?_cons_of_neg _ (by simp [hp])] at h
          exact h
        rw [List.map_cons]
        rw [show (if (p.1 == k) = true then ((k, v) : Nat × Message) else p) = p by
          simp [hp]]
        rw [List.find?_cons_of_neg _ (by simp [hp])]
        exact ih hps

theorem mapGet_mapSet_self (m : OngoingMap) (k : Nat) (v : Message) :
    mapGet (mapSet m k v) k = some v := by
  unfold mapSet
  split
  · rename_i h
    unfold mapGet
    rw [find?_map_replace k v m h]
    rfl
  · rename_i h
    have h0 : m.find? (fun p => p.1 == k) = none := by
      cases hfind : m.find? (fun p => p.1 == k) <;> simp [hfind] at h ⊢
    simp [mapGet, List.find?_append, h0]

theorem mapGet_mapDelete_self (m : OngoingMap) (k : Nat) :
    mapGet (mapDelete m k) k = none := by
  simp only [mapGet, mapDelete, Option.map_eq_none']
  rw [List.find?_eq_none]
  intro p hp
  have := (List.mem_filter.mp hp).2
  simp at this ⊢
  exact this

theorem mapHas_eq_isSome (m : OngoingMap) (k : Nat) :
    mapHas m k = (mapGet m k).isSome := by
  simp [mapHas, mapGet]

theorem mem_insertByNewest {x c : Chat} : ∀ {l : List Chat},
    x ∈ insertByNewest c l ↔ x = c ∨ x ∈ l := by
  intro l
  induction l with
  | nil => simp [insertByNewest]
  | cons d ds ih =>
      by_cases hd : d.createdAt ≤ c.createdAt
      · simp [insertByNewest, hd]
      · simp [insertByNewest, hd, ih]
        tauto

theorem mem_sortedChats {x : Chat} : ∀ {l : List Chat},
    x ∈ sortedChats l ↔ x ∈ l := by
  intro l
  induction l with
  | nil => simp [sortedChats]
  | cons c cs ih =>
      simp [sortedChats, mem_insertByNewest, ih]

theorem pairwise_insertByNewest {c : Chat} : ∀ {l : List Chat},
    l.Pairwise (fun a b => b.createdAt ≤ a.createdAt) →
    (insertByNewest c l).Pairwise (fun a b => b.createdAt ≤ a.createdAt) := by
  intro l
  induction l with
  | nil => simp [insertByNewest]
  | cons d ds ih =>
      intro h
      rcases List.pairwise_cons.mp h with ⟨hd, hds⟩
      by_cases hc : d.createdAt ≤ c.createdAt
      · rw [insertByNewest, if_pos hc]
        refine List.pairwise_cons.mpr ⟨?_, h⟩
        intro y hy
        rcases List.mem_cons.mp hy with rfl | hy'
        · exact hc
        · exact le_trans (hd y hy') hc
      · rw [insertByNewest, if_neg hc]
        refine List.pairwise_cons.mpr ⟨?_, ih hds⟩
        intro y hy
        rcases mem_insertByNewest.mp hy with rfl | hy'
        · exact le_of_not_le hc
        · exact hd y hy'

theorem pairwise_sortedChats : ∀ (l : List Chat),
    (sortedChats l).Pairwise (fun a b => b.createdAt ≤ a.createdAt) := by
  intro l
  induction l with
  | nil => simp [sortedChats]
  | cons c cs ih => exact pairwise_insertByNewest ih

theorem sortedChats_head_max {l rest : List Chat} {best : Chat}
    (h : sortedChats l = best :: rest) :
    ∀ x ∈ l, x.createdAt ≤ best.createdAt := by
  intro x hx
  have hx' : x ∈ best :: rest := by
    rw [← h]
    exact mem_sortedChats.mpr hx
  rcases List.mem_cons.mp hx' with rfl | hx''
  · exact le_refl _
  · have := pairwise_sortedChats l
    rw [h] at this
    exact (List.pairwise_cons.mp this).1 x hx''

theorem appendToAiMessage_ok (content : String) (chatId : Nat) (st : SessionState)
    (db : DB) (m : Message) (h : mapGet st.ongoingAiMessages chatId = some m) :
    appendToAiMessage content chatId st db [] =
      ⟨{ st with
          ongoingAiMessages :=
            mapSet st.ongoingAiMessages chatId { m with content := m.content ++ content },
          messages :=
            dbLayer.getMessages
              (dbLayer.updateMessageContent db
                (Message.idBang { m with content := m.content ++ content })
                (m.content ++ content)) chatId },
       dbLayer.updateMessageContent db
         (Message.idBang { m with content := m.content ++ content })
         (m.content ++ content), []⟩ := by
  simp [appendToAiMessage, h, takeStep, setMessages]

theorem runPartials_inflight (chatId now : Nat) :
    ∀ (fragments : List String) (st : SessionState) (db : DB) (m : Message),
      mapGet st.ongoingAiMessages chatId = some m →
      mapGet (runPartials fragments chatId now st db).st.ongoingAiMessages chatId =
        some { m with content := m.content ++ concatFragments fragments } := by
  intro fragments
  induction fragments with
  | nil =>
      intro st db m h
      simp [runPartials, concatFragments, String.append_empty, h]
  | cons f fs ih =>
      intro st db m h
      have hhas : mapHas st.ongoingAiMessages chatId = true := by
        rw [mapHas_eq_isSome, h]
        rfl
      have hstep_eq : handleAiPartialResponse f chatId now st db [] =
          ⟨{ st with
              ongoingAiMessages :=
                mapSet st.ongoingAiMessages chatId { m with content := m.content ++ f },
              messages := dbLayer.getMessages
                (dbLayer.updateMessageContent db
                  (Message.idBang { m with content := m.content ++ f })
                  (m.content ++ f)) chatId },
            dbLayer.updateMessageContent db
              (Message.idBang { m with content := m.content ++ f })
              (m.content ++ f), []⟩ := by
        rw [show handleAiPartialResponse f chatId now st db [] =
              appendToAiMessage f chatId st db [] by
          simp [handleAiPartialResponse, hhas]]
        exact appendToAiMessage_ok f chatId st db m h
      rw [runPartials, hstep_eq]
      have hrec := ih
        { st with
            ongoingAiMessages :=
              mapSet st.ongoingAiMessages chatId { m with content := m.content ++ f },
            messages := dbLayer.getMessages
              (dbLayer.updateMessageContent db
                (Message.idBang { m with content := m.content ++ f })
                (m.content ++ f)) chatId }
        (dbLayer.updateMessageContent db
          (Message.idBang { m with content := m.content ++ f })
          (m.content ++ f))
        { m with content := m.content ++ f }
        (mapGet_mapSet_self _ _ _)
      exact hrec.trans (by simp [concatFragments, String.append_assoc])

theorem startAiMessage_ok (f0 : String) (chatId now : Nat) (st : SessionState) (db : DB) :
    startAiMessage f0 chatId now st db [] =
      ⟨{ st with
          ongoingAiMessages := mapSet st.ongoingAiMessages chatId
            ⟨some db.nextMessageId, chatId, Role.assistant, f0, none, none, now⟩,
          messages := st.messages ++
            [⟨some db.nextMessageId, chatId, Role.assistant, f0, none, none, now⟩] },
       { db with
          messages := db.messages ++
            [⟨some db.nextMessageId, chatId, Role.assistant, f0, none, none, now⟩],
          nextMessageId := db.nextMessageId + 1 }, []⟩ := by
  simp [startAiMessage, takeStep, dbLayer.addMessage]

theorem inflight_content_concat_aux (chatId now : Nat) (f0 : String)
    (fragments : List String) (st : SessionState) (db : DB)
    (hnone : mapGet st.ongoingAiMessages chatId = none) :
    mapGet (runPartials (f0 :: fragments) chatId now st db).st.ongoingAiMessages chatId =
      some ⟨some db.nextMessageId, chatId, Role.assistant,
            concatFragments (f0 :: fragments), none, none, now⟩ := by
  have hhas : mapHas st.ongoingAiMessages chatId = false := by
    rw [mapHas_eq_isSome, hnone]
    rfl
  have hstep : handleAiPartialResponse f0 chatId now st db [] =
      startAiMessage f0 chatId now st db [] := by
    simp [handleAiPartialResponse, hhas]
  rw [runPartials, hstep, startAiMessage_ok]
  have hrec := runPartials_inflight chatId now fragments
    { st with
        ongoingAiMessages := mapSet st.ongoingAiMessages chatId
          ⟨some db.nextMessageId, chatId, Role.assistant, f0, none, none, now⟩,
        messages := st.messages ++
          [⟨some db.nextMessageId, chatId, Role.assistant, f0, none, none, now⟩] }
    { db with
        messages := db.messages ++
          [⟨some db.nextMessageId, chatId, Role.assistant, f0, none, none, now⟩],
        nextMessageId := db.nextMessageId + 1 }
    ⟨some db.nextMessageId, chatId, Role.assistant, f0, none, none, now⟩
    (mapGet_mapSet_self _ _ _)
  exact hrec.trans (by simp [concatFragments])

/-! Claim theorems. -/

/-- C1, counterexample: with `chatA` active and a stream in flight for
`chatB`, a partial fragment for `chatB` leaves the visible message list
equal to `chatB`'s persisted messages, not the active chat's — the
invariant "`messages` always reflects the persisted messages of the
active chat" is false on the code. -/
theorem active_invariant_counterexample :
    (handleAiPartialResponse "llo" 2 5 stAB dbAB []).st.activeChat = some chatA ∧
    (handleAiPartialResponse "llo" 2 5 stAB dbAB []).st.messages ≠
      dbLayer.getMessages (handleAiPartialResponse "llo" 2 5 stAB dbAB []).db chatA.idBang ∧
    (handleAiPartialResponse "llo" 2 5 stAB dbAB []).st.messages =
      dbLayer.getMessages (handleAiPartialResponse "llo" 2 5 stAB dbAB []).db 2 := by
  decide

/-- C1 (amended): the APPEND transition refreshes the visible message
list from the persisted messages of the *streaming* chat (the chatId of
the fragment), leaving the active chat unchanged; the claimed invariant
therefore holds after APPEND exactly when the streaming chat is the
active chat, and a fragment for a non-active chat leaves the list showing
the streaming chat's messages. -/
theorem append_refreshes_from_streaming_chat (content : String) (chatId : Nat)
    (st : SessionState) (db : DB) (m : Message)
    (h : mapGet st.ongoingAiMessages chatId = some m) :
    (appendToAiMessage content chatId st db []).st.messages =
      dbLayer.getMessages (appendToAiMessage content chatId st db []).db chatId ∧
    (appendToAiMessage content chatId st db []).st.activeChat = st.activeChat := by
  rw [appendToAiMessage_ok content chatId st db m h]
  exact ⟨rfl, rfl⟩

/-- C1, witness for the amended theorem at the streaming chat `chatB`. -/
theorem append_refreshes_from_streaming_chat_witness :
    (appendToAiMessage "llo" 2 stAB dbAB []).st.messages =
      dbLayer.getMessages (appendToAiMessage "llo" 2 stAB dbAB []).db 2 ∧
    (appendToAiMessage "llo" 2 stAB dbAB []).st.activeChat = stAB.activeChat :=
  append_refreshes_from_streaming_chat "llo" 2 stAB dbAB msgB (by decide)

/-- C2: for a chatId with no in-flight entry, delivering any nonempty
sequence of partial fragments (all store calls succeeding) leaves the
in-flight map holding an assistant message created by the first fragment
(id assigned by the store) whose content is the concatenation of all
fragments in delivery order. -/
theorem inflight_content_is_concat (chatId now : Nat) (f0 : String)
    (fragments : List String) (st : SessionState) (db : DB)
    (hnone : mapGet st.ongoingAiMessages chatId = none) :
    mapGet (runPartials (f0 :: fragments) chatId now st db).st.ongoingAiMessages chatId =
      some ⟨some db.nextMessageId, chatId, Role.assistant,
            concatFragments (f0 :: fragments), none, none, now⟩ :=
  inflight_content_concat_aux chatId now f0 fragments st db hnone

/-- C2, witness: two fragments accumulate to `"Hello"`. -/
theorem inflight_content_is_concat_witness :
    mapGet (runPartials ["He", "llo"] 1 5 stFreshA dbFreshA).st.ongoingAiMessages 1 =
      some ⟨some 0, 1, Role.assistant, concatFragments ["He", "llo"], none, none, 5⟩ :=
  inflight_content_is_concat 1 5 "He" ["llo"] stFreshA dbFreshA (by decide)

/-- C3, counterexample: when the persistence write during finalization
fails, the `catch` skips the map deletion, so the in-flight map still
contains the chatId — contradicting the claim that the entry is removed
"including the case where the persistence write during finalization
fails" (the store is also left without the token). -/
theorem finalize_failure_counterexample :
    mapGet ((handleAiCompletion [7] 2 stAB dbAB [false]).st.ongoingAiMessages) 2 ≠ none ∧
    (handleAiCompletion [7] 2 stAB dbAB [false]).db = dbAB := by
  decide

/-- C3 (amended): when the persistence write succeeds, a `complete(token)`
for a chatId with an in-flight entry removes that chatId from the map and
sets the persisted record's context to the token, touching nothing else
in memory; when the write fails the entry remains in the map. -/
theorem finalize_success (token : List Nat) (chatId mid : Nat) (st : SessionState)
    (db : DB) (m : Message) (h : mapGet st.ongoingAiMessages chatId = some m)
    (hid : m.id = some mid) (hrec : ∃ r ∈ db.messages, r.id = some mid) :
    mapGet (handleAiCompletion token chatId st db []).st.ongoingAiMessages chatId = none ∧
    (∀ rec ∈ (handleAiCompletion token chatId st db []).db.messages,
        rec.id = some mid → rec.context = some token) ∧
    (∃ rec ∈ (handleAiCompletion token chatId st db []).db.messages, rec.id = some mid) ∧
    (handleAiCompletion token chatId st db []).st.messages = st.messages ∧
    (handleAiCompletion token chatId st db []).st.chats = st.chats ∧
    (handleAiCompletion token chatId st db []).st.activeChat = st.activeChat := by
  have hmb : m.idBang = mid := by simp [Message.idBang, hid]
  have hstep : handleAiCompletion token chatId st db [] =
      ⟨{ st with ongoingAiMessages := mapDelete st.ongoingAiMessages chatId },
       dbLayer.updateMessageContext db m.idBang token, []⟩ := by
    simp [handleAiCompletion, h, takeStep]
  rw [hstep, hmb]
  refine ⟨mapGet_mapDelete_self _ _, ?_, ?_, rfl, rfl, rfl⟩
  · intro rec hmem hrid
    rcases List.mem_map.mp hmem with ⟨x, _hx, rfl⟩
    by_cases hxid : x.id = some mid
    · simp [hxid]
    · have : (x.id == some mid) = false := by simp [hxid]
      simp [this] at hrid ⊢
      exact absurd hrid hxid
  · rcases hrec with ⟨r, hr, hrid⟩
    refine ⟨{ r with context := some token }, ?_, hrid⟩
    exact List.mem_map.mpr ⟨r, hr, by simp [hrid]⟩

/-- C3, witness for the amended theorem: finalizing `chatB`'s stream. -/
theorem finalize_success_witness :
    mapGet (handleAiCompletion [7] 2 stAB dbAB []).st.ongoingAiMessages 2 = none ∧
    (∀ rec ∈ (handleAiCompletion [7] 2 stAB dbAB []).db.messages,
        rec.id = some 11 → rec.context = some [7]) ∧
    (∃ rec ∈ (handleAiCompletion [7] 2 stAB dbAB []).db.messages, rec.id = some 11) ∧
    (handleAiCompletion [7] 2 stAB dbAB []).st.messages = stAB.messages ∧
    (handleAiCompletion [7] 2 stAB dbAB []).st.chats = stAB.chats ∧
    (handleAiCompletion [7] 2 stAB dbAB []).st.activeChat = stAB.activeChat :=
  finalize_success [7] 2 11 stAB dbAB msgB (by decide) (by decide)
    ⟨msgB, by decide, by decide⟩

/-- C4: a `complete` for a chatId with no in-flight entry changes nothing
at all — no new message, no store write, chat list, active chat, message
list and in-flight map untouched (the source only logs an error). -/
theorem completion_without_inflight_is_noop (token : List Nat) (chatId : Nat)
    (st : SessionState) (db : DB) (sched : StoreSched)
    (h : mapGet st.ongoingAiMessages chatId = none) :
    handleAiCompletion token chatId st db sched = ⟨st, db, sched⟩ := by
  simp [handleAiCompletion, h]

/-- C4, witness: a completion for chatId 3, which has nothing in flight. -/
theorem completion_without_inflight_is_noop_witness :
    handleAiCompletion [1] 3 stAB dbAB [] = ⟨stAB, dbAB, []⟩ :=
  completion_without_inflight_is_noop [1] 3 stAB dbAB [] (by decide)

/-- Success-path shape of `startNewChat`. -/
theorem startNewChat_ok (name model : String) (now : Nat) (st : SessionState) (db : DB) :
    startNewChat name model now st db [] =
      ⟨{ st with
          chats := st.chats ++ [⟨some db.nextChatId, name, model, now⟩],
          activeChat := some ⟨some db.nextChatId, name, model, now⟩,
          messages := [] },
       { db with
          chats := db.chats ++ [⟨some db.nextChatId, name, model, now⟩],
          nextChatId := db.nextChatId + 1 }, []⟩ := by
  simp [startNewChat, takeStep, dbLayer.addChat]

/-- C5: `switchModel` is a complete no-op when there is no active chat or
the message list is non-empty; with an active empty chat (and the write
succeeding) it sets the active chat's model in memory and on that chat's
store record, changing nothing else (in the source the cache entry can
alias the active chat object, in which case it mirrors the same model
write; the embedding keeps the cache value, matching a `getChat`-loaded
active chat). -/
theorem switchModel_gated (model : String) (st : SessionState) (db : DB) :
    (∀ sched : StoreSched, st.activeChat = none ∨ st.messages ≠ [] →
      switchModel model st db sched = ⟨st, db, sched⟩) ∧
    (∀ (ac : Chat) (cid : Nat), st.activeChat = some ac → st.messages = [] →
      ac.id = some cid →
      (switchModel model st db []).st.activeChat = some { ac with model := model } ∧
      (switchModel model st db []).st.chats = st.chats ∧
      (switchModel model st db []).st.messages = st.messages ∧
      (switchModel model st db []).st.ongoingAiMessages = st.ongoingAiMessages ∧
      (switchModel model st db []).db.messages = db.messages ∧
      (∀ c ∈ (switchModel model st db []).db.chats, c.id = some cid → c.model = model) ∧
      (∀ c ∈ db.chats, c.id ≠ some cid → c ∈ (switchModel model st db []).db.chats)) := by
  constructor
  · intro sched hpre
    rcases hpre with hnone | hmsgs
    · simp [switchModel, hnone]
    · have hm : hasMessages st = true := by
        simp [hasMessages]
        exact List.length_pos.mpr hmsgs
      cases hac : st.activeChat with
      | none => simp [switchModel, hac]
      | some ac => simp [switchModel, hac, hm]
  · intro ac cid hac hmsgs hcid
    have hm : hasMessages st = false := by simp [hasMessages, hmsgs]
    have hab : ac.idBang = cid := by simp [Chat.idBang, hcid]
    have hstep : switchModel model st db [] =
        ⟨{ st with activeChat := some { ac with model := model } },
         dbLayer.updateChatModel db ac.idBang model, []⟩ := by
      simp [switchModel, hac, hm, takeStep]
    rw [hstep, hab]
    refine ⟨rfl, rfl, rfl, rfl, rfl, ?_, ?_⟩
    · intro c hmem hcid'
      rcases List.mem_map.mp hmem with ⟨x, _hx, rfl⟩
      by_cases hxid : x.id = some cid
      · simp [hxid]
      · have : (x.id == some cid) = false := by simp [hxid]
        simp [this] at hcid' ⊢
        exact absurd hcid' hxid
    · intro c hmem hne
      have : (c.id == some cid) = false := by
        simp only [beq_eq_false_iff_ne, ne_eq]
        exact hne
      exact List.mem_map.mpr ⟨c, hmem, by simp [this]⟩

/-- C5, witness: a chat with history keeps its model; a fresh empty chat
gets the new model. -/
theorem switchModel_gated_witness :
    switchModel "m9" stActiveA dbAB [] = ⟨stActiveA, dbAB, []⟩ ∧
    (switchModel "m9" stFreshA dbFreshA []).st.activeChat =
      some { chatA with model := "m9" } :=
  ⟨(switchModel_gated "m9" stActiveA dbAB).1 [] (Or.inr (by decide)),
   ((switchModel_gated "m9" stFreshA dbFreshA).2 chatA 1 rfl rfl rfl).1⟩

/-- C6, counterexample: when the single existing chat is *not* the active
chat (reachable, e.g., after `initialize` loses its `switchChat` to a
store failure), deleting it leaves zero chats — no replacement chat is
created, contradicting "exactly one chat existing afterward" for the
"whether or not it is the active chat" case. -/
theorem delete_last_chat_counterexample :
    (deleteChat 2 5 stOnlyB dbOnlyB []).st.chats = [] ∧
    (deleteChat 2 5 stOnlyB dbOnlyB []).st.activeChat = none ∧
    dbLayer.getAllChats (deleteChat 2 5 stOnlyB dbOnlyB []).db = [] := by
  decide

/-- C6 (amended): deleting the last remaining chat when it *is* the
active chat (stores succeeding) leaves exactly one chat, a newly created
one whose model equals the deleted chat's model; when the single chat is
not active, no replacement is created and zero chats remain. -/
theorem delete_last_active_chat_starts_new (c : Chat) (cid now : Nat)
    (st : SessionState) (db : DB) (hchats : st.chats = [c])
    (hactive : st.activeChat = some c) (hid : c.id = some cid)
    (hdb : db.chats = [c]) :
    (deleteChat cid now st db []).st.chats =
      [⟨some db.nextChatId, "new chat", c.model, now⟩] ∧
    (deleteChat cid now st db []).st.activeChat =
      some ⟨some db.nextChatId, "new chat", c.model, now⟩ ∧
    dbLayer.getAllChats (deleteChat cid now st db []).db =
      [⟨some db.nextChatId, "new chat", c.model, now⟩] := by
  have hfilter : st.chats.filter (fun chat => chat.id != some cid) = [] := by
    rw [hchats]
    simp [hid]
  have hstep : deleteChat cid now st db [] =
      startNewChat "new chat" c.model now { st with chats := [] }
        (dbLayer.deleteMessagesOfChat (dbLayer.deleteChat db cid) cid) [] := by
    simp [deleteChat, takeStep, hactive, hid, hfilter, sortedChats]
  have hdbfilter : (dbLayer.deleteMessagesOfChat (dbLayer.deleteChat db cid) cid).chats = [] := by
    simp [dbLayer.deleteMessagesOfChat, dbLayer.deleteChat, hdb, hid]
  have hdbnext : (dbLayer.deleteMessagesOfChat (dbLayer.deleteChat db cid) cid).nextChatId =
      db.nextChatId := rfl
  rw [hstep, startNewChat_ok, hdbnext]
  refine ⟨by simp, rfl, ?_⟩
  simp [dbLayer.getAllChats, hdbfilter]

/-- C6, witness: the active sole chat `chatB` is replaced by a fresh chat
with `chatB`'s model. -/
theorem delete_last_active_chat_starts_new_witness :
    (deleteChat 2 5 ⟨[chatB], some chatB, [], []⟩ dbOnlyB []).st.chats =
      [⟨some 3, "new chat", chatB.model, 5⟩] ∧
    (deleteChat 2 5 ⟨[chatB], some chatB, [], []⟩ dbOnlyB []).st.activeChat =
      some ⟨some 3, "new chat", chatB.model, 5⟩ ∧
    dbLayer.getAllChats (deleteChat 2 5 ⟨[chatB], some chatB, [], []⟩ dbOnlyB []).db =
      [⟨some 3, "new chat", chatB.model, 5⟩] :=
  delete_last_active_chat_starts_new chatB 2 5 ⟨[chatB], some chatB, [], []⟩ dbOnlyB
    rfl rfl rfl rfl

/-- Filtering out records that a predicate can never match does not
change a `find?`. -/
theorem find?_filter_of_imp {α : Type} (p q : α → Bool)
    (h : ∀ x, p x = true → q x = true) :
    ∀ l : List α, (l.filter q).find? p = l.find? p := by
  intro l
  induction l with
  | nil => rfl
  | cons a as ih =>
      by_cases hq : q a = true
      · rw [List.filter_cons_of_pos hq]
        by_cases hp : p a = true
        · rw [List.find?_cons_of_pos _ hp, List.find?_cons_of_pos _ hp]
        · rw [List.find?_cons_of_neg _ hp, List.find?_cons_of_neg _ hp, ih]
      · have hp : ¬p a = true := fun hpa => hq (h a hpa)
        rw [List.filter_cons_of_neg hq, List.find?_cons_of_neg _ hp, ih]

/-- C7: deleting the active chat while other chats remain switches to the
remaining chat with the greatest `createdAt` (head of the descending
sorted view) and replaces the message list with that chat's persisted
messages; the cache keeps exactly the remaining chats.  Hypotheses: the
stores succeed and the store still holds the switched-to chat's record. -/
theorem deleteChat_active_switches_to_newest (cid bid now : Nat)
    (st : SessionState) (db : DB) (a best : Chat) (rest : List Chat)
    (hactive : st.activeChat = some a) (haid : a.id = some cid)
    (hsort : sortedChats (st.chats.filter (fun chat => chat.id != some cid)) =
      best :: rest)
    (hbid : best.id = some bid) (hne : bid ≠ cid)
    (hfind : dbLayer.getChat db bid = some best) :
    (deleteChat cid now st db []).st.activeChat = some best ∧
    (∀ ch ∈ st.chats.filter (fun chat => chat.id != some cid),
        ch.createdAt ≤ best.createdAt) ∧
    (deleteChat cid now st db []).st.messages =
      dbLayer.getMessages (deleteChat cid now st db []).db bid ∧
    (deleteChat cid now st db []).st.chats =
      st.chats.filter (fun chat => chat.id != some cid) := by
  have hgb : best.idBang = bid := by simp [Chat.idBang, hbid]
  have himp : ∀ x : Chat, (x.id == some bid) = true → (x.id != some cid) = true := by
    intro x hx
    have hx' : x.id = some bid := by simpa using hx
    simp [hx', hne]
  have hfind2 : dbLayer.getChat
      (dbLayer.deleteMessagesOfChat (dbLayer.deleteChat db cid) cid) bid = some best := by
    show (db.chats.filter (fun c => c.id != some cid)).find?
        (fun c => c.id == some bid) = some best
    rw [find?_filter_of_imp _ _ himp db.chats]
    exact hfind
  have hstep : deleteChat cid now st db [] = switchChat best.idBang
      { st with chats := st.chats.filter (fun chat => chat.id != some cid) }
      (dbLayer.deleteMessagesOfChat (dbLayer.deleteChat db cid) cid) [] := by
    simp [deleteChat, takeStep, hactive, haid, hsort]
  have hswitch : switchChat best.idBang
      { st with chats := st.chats.filter (fun chat => chat.id != some cid) }
      (dbLayer.deleteMessagesOfChat (dbLayer.deleteChat db cid) cid) [] =
      ⟨{ st with
          chats := st.chats.filter (fun chat => chat.id != some cid),
          activeChat := some best,
          messages := dbLayer.getMessages
            (dbLayer.deleteMessagesOfChat (dbLayer.deleteChat db cid) cid) bid },
       dbLayer.deleteMessagesOfChat (dbLayer.deleteChat db cid) cid, []⟩ := by
    rw [hgb]
    simp [switchChat, takeStep, hfind2, setActiveChat, setMessages]
  rw [hstep, hswitch]
  exact ⟨rfl, sortedChats_head_max hsort, rfl, rfl⟩

/-- C7, witness: deleting active `chatA` switches to `chatB`, the newest
remaining chat, and loads its messages. -/
theorem deleteChat_active_switches_to_newest_witness :
    (deleteChat 1 30 stAB dbAB []).st.activeChat = some chatB ∧
    (∀ ch ∈ stAB.chats.filter (fun chat => chat.id != some 1),
        ch.createdAt ≤ chatB.createdAt) ∧
    (deleteChat 1 30 stAB dbAB []).st.messages =
      dbLayer.getMessages (deleteChat 1 30 stAB dbAB []).db 2 ∧
    (deleteChat 1 30 stAB dbAB []).st.chats =
      stAB.chats.filter (fun chat => chat.id != some 1) :=
  deleteChat_active_switches_to_newest 1 2 30 stAB dbAB chatA chatB []
    rfl rfl (by decide) rfl (by decide) (by decide)

/-- C8, counterexample: `addSystemMessage` discards the id returned by the
store (`await dbLayer.addMessage(message)` without assignment) and pushes
the message with `id = none` into the visible list, while the persisted
record does carry an id — the claim that every appended message has its
id assigned before insertion is false for system messages. -/
theorem system_message_without_id_counterexample :
    ((addSystemMessage "note" none 5 stFreshA dbFreshA []).st.messages.map Message.id) =
      [none] ∧
    ((addSystemMessage "note" none 5 stFreshA dbFreshA []).db.messages.map Message.id) =
      [some 0] := by
  decide

/-- C8 (amended): `addUserMessage` and the streaming START transition
append a message whose id was just assigned by the store, and that id has
a persisted record; `addSystemMessage` persists the record but appends
the in-memory message with its id still unset.  Every appended in-memory
message whose id is set therefore has a persisted record. -/
theorem message_id_assignment (st : SessionState) (db : DB) (a : Chat)
    (content f0 : String) (now chatId : Nat) :
    (st.activeChat = some a →
      ((addUserMessage content now st db []).st.messages.getLast?).map Message.id =
        some (some db.nextMessageId) ∧
      ∃ rec ∈ (addUserMessage content now st db []).db.messages,
        rec.id = some db.nextMessageId) ∧
    (((startAiMessage f0 chatId now st db []).st.messages.getLast?).map Message.id =
        some (some db.nextMessageId) ∧
      ∃ rec ∈ (startAiMessage f0 chatId now st db []).db.messages,
        rec.id = some db.nextMessageId) ∧
    (∀ meta : Option String, st.activeChat = some a →
      ((addSystemMessage content meta now st db []).st.messages.getLast?).map Message.id =
        some none ∧
      ∃ rec ∈ (addSystemMessage content meta now st db []).db.messages,
        rec.id = some db.nextMessageId ∧ rec.content = content) := by
  refine ⟨?_, ?_, ?_⟩
  · intro hac
    have hstep : addUserMessage content now st db [] =
        ⟨{ st with messages := dbLayer.getMessages db a.idBang ++
            [⟨some db.nextMessageId, a.idBang, Role.user, content, none, none, now⟩] },
         { db with
            messages := db.messages ++
              [⟨some db.nextMessageId, a.idBang, Role.user, content, none, none, now⟩],
            nextMessageId := db.nextMessageId + 1 }, []⟩ := by
      simp [addUserMessage, hac, takeStep, setMessages, dbLayer.addMessage]
    rw [hstep]
    refine ⟨by simp [List.getLast?_concat], ?_⟩
    exact ⟨⟨some db.nextMessageId, a.idBang, Role.user, content, none, none, now⟩,
      by simp, rfl⟩
  · rw [startAiMessage_ok]
    refine ⟨by simp [List.getLast?_concat], ?_⟩
    exact ⟨⟨some db.nextMessageId, chatId, Role.assistant, f0, none, none, now⟩,
      by simp, rfl⟩
  · intro meta hac
    have hstep : addSystemMessage content meta now st db [] =
        ⟨{ st with messages := st.messages ++
            [⟨none, a.idBang, Role.system, content, none, meta, now⟩] },
         { db with
            messages := db.messages ++
              [⟨some db.nextMessageId, a.idBang, Role.system, content, none, meta, now⟩],
            nextMessageId := db.nextMessageId + 1 }, []⟩ := by
      simp [addSystemMessage, hac, takeStep, dbLayer.addMessage]
    rw [hstep]
    refine ⟨by simp [List.getLast?_concat], ?_⟩
    exact ⟨⟨some db.nextMessageId, a.idBang, Role.system, content, none, meta, now⟩,
      by simp, rfl, rfl⟩

/-- C8, witness for the amended theorem on a fresh active chat. -/
theorem message_id_assignment_witness :
    (((addUserMessage "hi" 5 stFreshA dbFreshA []).st.messages.getLast?).map Message.id =
        some (some 0) ∧
      ∃ rec ∈ (addUserMessage "hi" 5 stFreshA dbFreshA []).db.messages,
        rec.id = some 0) ∧
    (((addSystemMessage "note" none 5 stFreshA dbFreshA []).st.messages.getLast?).map
        Message.id = some none ∧
      ∃ rec ∈ (addSystemMessage "note" none 5 stFreshA dbFreshA []).db.messages,
        rec.id = some 0 ∧ rec.content = "note") :=
  ⟨(message_id_assignment stFreshA dbFreshA chatA "hi" "He" 5 1).1 rfl,
   (message_id_assignment stFreshA dbFreshA chatA "note" "He" 5 1).2.2 none rfl⟩

/-- C9, counterexample: `switchChat` whose `getChat` succeeds but whose
`getMessages` fails has already assigned the new active chat when the
failure is caught, so the consumer-visible state after the failed
operation differs from the state before it (and the stale message list
still belongs to the previous chat) — the "state unchanged on error"
half of the claim is false. -/
theorem failed_op_changes_state_counterexample :
    (switchChat 2 stActiveA dbAB [true, false]).st ≠ stActiveA ∧
    (switchChat 2 stActiveA dbAB [true, false]).st.activeChat = some chatB ∧
    (switchChat 2 stActiveA dbAB [true, false]).st.messages = stActiveA.messages := by
  decide

/-- C9 (amended): no operation propagates an exception (each is a total
function; in the source every store failure is caught and logged), and a
failure at an operation's *first* store call leaves session state and
store unchanged; but operations are not atomic — a failure after an
earlier successful step can leave a partial mutation behind, as
`switchChat` shows. -/
theorem ops_unchanged_on_first_store_failure (st : SessionState) (db : DB)
    (chatId now : Nat) (name model content : String) (meta : Option String) :
    ((initializeChats now st db [false]).st = st ∧
      (initializeChats now st db [false]).db = db) ∧
    ((switchChat chatId st db [false]).st = st ∧
      (switchChat chatId st db [false]).db = db) ∧
    ((switchModel model st db [false]).st = st ∧
      (switchModel model st db [false]).db = db) ∧
    ((startNewChat name model now st db [false]).st = st ∧
      (startNewChat name model now st db [false]).db = db) ∧
    ((addSystemMessage content meta now st db [false]).st = st ∧
      (addSystemMessage content meta now st db [false]).db = db) ∧
    ((addUserMessage content now st db [false]).st = st ∧
      (addUserMessage content now st db [false]).db = db) ∧
    ((deleteChat chatId now st db [false]).st = st ∧
      (deleteChat chatId now st db [false]).db = db) ∧
    ((wipeDatabase now st db [false]).st = st ∧
      (wipeDatabase now st db [false]).db = db) := by
  refine ⟨⟨?_, ?_⟩, ⟨?_, ?_⟩, ⟨?_, ?_⟩, ⟨?_, ?_⟩, ⟨?_, ?_⟩, ⟨?_, ?_⟩, ⟨?_, ?_⟩,
    ⟨?_, ?_⟩⟩ <;>
    first
    | simp [initializeChats, takeStep]
    | simp [switchChat, takeStep]
    | (cases hac : st.activeChat with
       | none => simp [switchModel, addSystemMessage, addUserMessage, hac]
       | some ac =>
           by_cases hm : hasMessages st = true <;>
             simp [switchModel, addSystemMessage, addUserMessage, hac, hm, takeStep])
    | simp [startNewChat, takeStep]
    | simp [deleteChat, takeStep]
    | simp [wipeDatabase, takeStep]

/-- C10: FINALIZE writes the continuation token only to the persisted
record — the in-memory message list is untouched by `complete` — and the
token becomes visible in memory through the message-list refresh that
`addUserMessage` performs from the store. -/
theorem context_in_store_until_refresh (token : List Nat) (cid mid now : Nat)
    (st : SessionState) (db : DB) (a : Chat) (m rec : Message) (content : String)
    (hactive : st.activeChat = some a) (haid : a.id = some cid)
    (hin : mapGet st.ongoingAiMessages cid = some m) (hmid : m.id = some mid)
    (hrec : rec ∈ db.messages) (hrid : rec.id = some mid) (hrchat : rec.chatId = cid) :
    (handleAiCompletion token cid st db []).st.messages = st.messages ∧
    (∃ r ∈ (addUserMessage content now (handleAiCompletion token cid st db []).st
        (handleAiCompletion token cid st db []).db []).st.messages,
      r.id = some mid ∧ r.context = some token) := by
  have hmb : m.idBang = mid := by simp [Message.idBang, hmid]
  have hab : a.idBang = cid := by simp [Chat.idBang, haid]
  have hstep : handleAiCompletion token cid st db [] =
      ⟨{ st with ongoingAiMessages := mapDelete st.ongoingAiMessages cid },
       dbLayer.updateMessageContext db m.idBang token, []⟩ := by
    simp [handleAiCompletion, hin, takeStep]
  rw [hstep, hmb]
  refine ⟨rfl, ?_⟩
  have hstep2 : addUserMessage content now
      { st with ongoingAiMessages := mapDelete st.ongoingAiMessages cid }
      (dbLayer.updateMessageContext db mid token) [] =
      ⟨{ st with
          ongoingAiMessages := mapDelete st.ongoingAiMessages cid,
          messages := dbLayer.getMessages (dbLayer.updateMessageContext db mid token)
              a.idBang ++
            [⟨some (dbLayer.updateMessageContext db mid token).nextMessageId, a.idBang,
              Role.user, content, none, none, now⟩] },
       { dbLayer.updateMessageContext db mid token with
          messages := (dbLayer.updateMessageContext db mid token).messages ++
            [⟨some (dbLayer.updateMessageContext db mid token).nextMessageId, a.idBang,
              Role.user, content, none, none, now⟩],
          nextMessageId := (dbLayer.updateMessageContext db mid token).nextMessageId + 1 },
       []⟩ := by
    simp [addUserMessage, hactive, takeStep, setMessages, dbLayer.addMessage]
  rw [hstep2]
  refine ⟨{ rec with context := some token }, ?_, hrid, rfl⟩
  apply List.mem_append_left
  rw [hab]
  apply List.mem_filter.mpr
  constructor
  · show { rec with context := some token } ∈
      (dbLayer.updateMessageContext db mid token).messages
    exact List.mem_map.mpr ⟨rec, hrec, by simp [hrid]⟩
  · simp [hrchat]

/-- C10, witness: finalizing `chatB`'s stream with token `[3, 4]`, then
sending a user message in `chatB`, makes the token visible in memory. -/
theorem context_in_store_until_refresh_witness :
    (handleAiCompletion [3, 4] 2 ⟨[chatB], some chatB, [msgB], [(2, msgB)]⟩ dbOnlyB []).st.messages =
      (⟨[chatB], some chatB, [msgB], [(2, msgB)]⟩ : SessionState).messages ∧
    (∃ r ∈ (addUserMessage "next" 30
        (handleAiCompletion [3, 4] 2 ⟨[chatB], some chatB, [msgB], [(2, msgB)]⟩ dbOnlyB []).st
        (handleAiCompletion [3, 4] 2 ⟨[chatB], some chatB, [msgB], [(2, msgB)]⟩ dbOnlyB []).db
        []).st.messages,
      r.id = some 11 ∧ r.context = some [3, 4]) :=
  context_in_store_until_refresh [3, 4] 2 11 30
    ⟨[chatB], some chatB, [msgB], [(2, msgB)]⟩ dbOnlyB chatB msgB msgB "next"
    rfl rfl (by decide) rfl (by decide) rfl rfl
